import Mathlib

/-!
Verification development for the fitness-chat RAG system.

Text is modelled as `List Char` (Python strings), similarity scores as `Rat`.
The chat loop of src/cli.py (command `chat`) and the batch loop of
src/init_knowledge_base.py are embedded from the source.  The service layer
(conversation manager, chunker, retriever, RAG generation) is not present in
the source tree; those operations are modelled from the specification, as
marked in their doc comments.
-/

namespace FitnessChat

/-- Role of a chat message, from the spec data model (MessageRole in the code). -/
inductive MessageRole where
  | user
  | assistant
deriving DecidableEq, Repr

/-- Retrieval result: content, provenance and similarity score (spec section 3). -/
structure RetrievalResult where
  content : List Char
  source : List Char
  score : Rat
deriving DecidableEq, Repr

/-- Message of a conversation (spec section 3). -/
structure Message where
  role : MessageRole
  content : List Char
  sources : List RetrievalResult
  timestamp : Nat
deriving DecidableEq, Repr

/-- Conversation record (spec section 3). -/
structure Conversation where
  id : List Char
  title : List Char
  messages : List Message
  created_at : Nat
  updated_at : Nat
deriving DecidableEq, Repr

/-- Error raised by the conversation store. -/
inductive StoreError where
  | notFound
deriving DecidableEq, Repr

/-- Modelled from the spec: the Conversation Store holds the ordered collection
of conversations (section 4.4); the concrete manager is not in the source tree. -/
def ConversationStore : Type := List Conversation

/-- Modelled from the spec: lookup of a conversation by id in the store
(the get operation of section 4.4). -/
def findConversation : List Conversation → List Char → Option Conversation
  | [], _ => none
  | c :: rest, id => if c.id = id then some c else findConversation rest id

/-- Appending one message to a single conversation record, setting the
timestamp and advancing updated_at (spec section 4.4). -/
def appendToConv (role : MessageRole) (content : List Char)
    (sources : List RetrievalResult) (now : Nat) (c : Conversation) : Conversation :=
  { c with
    messages := c.messages ++ [⟨role, content, sources, now⟩]
    updated_at := now }

/-- Pointwise update of the conversation with the given id, leaving all other
conversations untouched. -/
def updateConv (id : List Char) (f : Conversation → Conversation)
    (store : List Conversation) : List Conversation :=
  store.map (fun c => if c.id = id then f c else c)

/-- Modelled from the spec: append of section 4.4 - fails with NotFoundError
when the id is unknown, otherwise atomically appends one message and updates
updated_at.  The concrete conversation manager is not in the source tree. -/
def add_message (store : List Conversation) (id : List Char) (role : MessageRole)
    (content : List Char) (sources : List RetrievalResult) (now : Nat) :
    Except StoreError (List Conversation) :=
  match findConversation store id with
  | none => .error .notFound
  | some _ => .ok (updateConv id (appendToConv role content sources now) store)

/-- Modelled from the spec: history of section 4.4 - the full chronological
message sequence of a conversation. -/
def get_conversation_history (store : List Conversation) (id : List Char) :
    List Message :=
  match findConversation store id with
  | none => []
  | some c => c.messages

theorem findConversation_updateConv (store : List Conversation) (id : List Char)
    (f : Conversation → Conversation) (hf : ∀ c, (f c).id = c.id) :
    findConversation (updateConv id f store) id = (findConversation store id).map f := by
  induction store with
  | nil => rfl
  | cons c rest ih =>
    by_cases h : c.id = id
    · simp [updateConv, findConversation, h, hf]
    · simpa [updateConv, findConversation, h] using ih

theorem appendToConv_id (role : MessageRole) (content : List Char)
    (sources : List RetrievalResult) (now : Nat) (c : Conversation) :
    (appendToConv role content sources now c).id = c.id := rfl

theorem add_message_ok (store : List Conversation) (id : List Char)
    (role : MessageRole) (content : List Char) (sources : List RetrievalResult)
    (now : Nat) (c : Conversation) (hc : findConversation store id = some c) :
    add_message store id role content sources now
      = .ok (updateConv id (appendToConv role content sources now) store) := by
  simp [add_message, hc]

theorem find_after_add (store : List Conversation) (id : List Char)
    (role : MessageRole) (content : List Char) (sources : List RetrievalResult)
    (now : Nat) (c : Conversation) (hc : findConversation store id = some c) :
    findConversation (updateConv id (appendToConv role content sources now) store) id
      = some (appendToConv role content sources now c) := by
  rw [findConversation_updateConv store id _ (appendToConv_id role content sources now), hc]
  rfl

theorem history_after_add (store : List Conversation) (id : List Char)
    (role : MessageRole) (content : List Char) (sources : List RetrievalResult)
    (now : Nat) (c : Conversation) (hc : findConversation store id = some c) :
    get_conversation_history
        (updateConv id (appendToConv role content sources now) store) id
      = get_conversation_history store id ++ [⟨role, content, sources, now⟩] := by
  unfold get_conversation_history
  rw [find_after_add store id role content sources now c hc, hc]
  rfl

/-- Modelled from the spec: the fixed domain-framing system policy of the
prompt composer (FITNESS_COACH_SYSTEM_PROMPT in the RAG service, whose source
is not in the tree).  The exact wording is irrelevant to the claims; only that
it is one fixed constant matters. -/
def FITNESS_COACH_SYSTEM_PROMPT : List Char :=
  String.data "You are a professional fitness coach."

/-- A request to the generation gateway: prompt plus system prompt, as passed
to ollama_client.generate in the no-RAG branch of src/cli.py. -/
structure GenRequest where
  prompt : List Char
  system_prompt : List Char
deriving DecidableEq, Repr

/-- The generation call a chat turn issues: either a direct gateway call
(no-RAG branch of src/cli.py) or a RAG call carrying the query and the
conversation history handed to rag_service.generate_answer. -/
inductive GenCall where
  | direct (req : GenRequest)
  | rag (query : List Char) (history : List Message)
deriving DecidableEq, Repr

/-- Mutable state of the interactive chat loop of src/cli.py: the
conversation store and the current conversation id. -/
structure ChatState where
  store : List Conversation
  current_id : List Char
deriving DecidableEq, Repr

/-- Result of one pass of the chat loop body: the new state, the generation
call that was issued (if any), the retrieval results surfaced to the user as
citations, and whether the generation gateway failed. -/
structure TurnResult where
  state : ChatState
  call : Option GenCall
  displayed : List RetrievalResult
  genError : Bool
deriving DecidableEq, Repr

/-- Citation display of src/cli.py lines 169-172: when the source list is
nonempty, the first three results are printed. -/
def citedSources (sources : List RetrievalResult) : List RetrievalResult :=
  if sources.isEmpty then [] else sources.take 3

/-- Query-processing portion of the chat loop body (src/cli.py lines 122-174):
append the user message, fetch the history, call the generator (directly in
no-RAG mode, through the RAG service otherwise), append the assistant message
on success.  A raised GenerationError is caught by the except handler of the
loop, leaving the store as it was at the moment of the raise.  The two
gateways are oracles: genD models ollama_client.generate and genA models
rag_service.generate_answer, with none standing for a raised error. -/
def processInput (noRag : Bool)
    (genD : GenRequest → Option (List Char))
    (genA : List Char → List Message → Option (List Char × List RetrievalResult))
    (st : ChatState) (input : List Char) (t1 t2 : Nat) : TurnResult :=
  match add_message st.store st.current_id .user input [] t1 with
  | .error _ => ⟨st, none, [], false⟩
  | .ok s1 =>
    let history := get_conversation_history s1 st.current_id
    if noRag then
      match genD ⟨input, FITNESS_COACH_SYSTEM_PROMPT⟩ with
      | none =>
        ⟨⟨s1, st.current_id⟩, some (.direct ⟨input, FITNESS_COACH_SYSTEM_PROMPT⟩), [], true⟩
      | some answer =>
        match add_message s1 st.current_id .assistant answer [] t2 with
        | .error _ =>
          ⟨⟨s1, st.current_id⟩, some (.direct ⟨input, FITNESS_COACH_SYSTEM_PROMPT⟩), [], false⟩
        | .ok s2 =>
          ⟨⟨s2, st.current_id⟩, some (.direct ⟨input, FITNESS_COACH_SYSTEM_PROMPT⟩),
            citedSources [], false⟩
    else
      match genA input history.dropLast with
      | none =>
        ⟨⟨s1, st.current_id⟩, some (.rag input history.dropLast), [], true⟩
      | some (answer, sources) =>
        match add_message s1 st.current_id .assistant answer sources t2 with
        | .error _ =>
          ⟨⟨s1, st.current_id⟩, some (.rag input history.dropLast), [], false⟩
        | .ok s2 =>
          ⟨⟨s2, st.current_id⟩, some (.rag input history.dropLast),
            citedSources sources, false⟩

/-- Lower-casing of a Python string (str.lower applied characterwise). -/
def pyLower (s : List Char) : List Char := s.map Char.toLower

/-- Leading-whitespace removal, the first half of Python str.strip. -/
def pyLstrip : List Char → List Char
  | [] => []
  | c :: rest => if c.isWhitespace then pyLstrip rest else c :: rest

/-- Python str.strip: whitespace removed from both ends. -/
def pyStrip (s : List Char) : List Char :=
  (pyLstrip (pyLstrip s).reverse).reverse

/-- Python str.startswith on character lists. -/
def pyStartswith : List Char → List Char → Bool
  | _, [] => true
  | [], _ :: _ => false
  | c :: cs, p :: ps => c == p && pyStartswith cs ps

/-- Modelled from the spec: create of section 4.4 - a fresh conversation with
a generated unique id and a timestamp-derived default title; the concrete
manager is not in the source tree, so the fresh id is passed in as a
parameter. -/
def create_conversation (store : List Conversation) (freshId : List Char)
    (title : Option (List Char)) (now : Nat) : Conversation × List Conversation :=
  let t := title.getD (String.data "Conversation " ++ Nat.toDigits 10 now)
  let c : Conversation := ⟨freshId, t, [], now, now⟩
  (c, store ++ [c])

/-- One pass of the interactive chat loop body of src/cli.py lines 96-180:
the command dispatch (quit, help, history, new, blank input) followed by the
query-processing path. -/
def loopBody (noRag : Bool)
    (genD : GenRequest → Option (List Char))
    (genA : List Char → List Message → Option (List Char × List RetrievalResult))
    (st : ChatState) (input freshId : List Char) (t1 t2 : Nat) : TurnResult :=
  if pyLower input ∈ [String.data "quit", String.data "exit", String.data "q"] then
    ⟨st, none, [], false⟩
  else if pyLower input = String.data "help" then
    ⟨st, none, [], false⟩
  else if pyLower input = String.data "history" then
    ⟨st, none, [], false⟩
  else if pyStartswith (pyLower input) (String.data "new ") then
    let newTitle := pyStrip (input.drop 4)
    let created := create_conversation st.store freshId
      (if newTitle = [] then none else some newTitle) t1
    ⟨⟨created.2, created.1.id⟩, none, [], false⟩
  else if pyStrip input = [] then
    ⟨st, none, [], false⟩
  else
    processInput noRag genD genA st input t1 t2

/-- Modelled from the spec: the Chunker of section 4.1, hard character cuts
with a fixed stride of maxSize - overlap (the fallback cut policy); the
concrete chunker is not in the source tree.  Emits the trailing remainder as a
final chunk. -/
def splitGo (maxSize step : Nat) (text : List Char) : List (List Char) :=
  if _h1 : text.length ≤ maxSize then [text]
  else if _h2 : step = 0 then [text]
  else text.take maxSize :: splitGo maxSize step (text.drop step)
termination_by text.length
decreasing_by
  simp only [List.length_drop]
  omega

/-- Modelled from the spec: split of section 4.1 - overlapping chunks of at
most maxSize characters, with overlap characters duplicated between
consecutive chunks; an empty document yields no chunks (a chunk is never
empty). -/
def split (text : List Char) (maxSize overlap : Nat) : List (List Char) :=
  if text.isEmpty then [] else splitGo maxSize (maxSize - overlap) text

/-- Reassembly of a chunk sequence: the first chunk whole, every later chunk
with its leading overlap characters removed. -/
def reassemble : List (List Char) → Nat → List Char
  | [], _ => []
  | c :: rest, overlap => c ++ (rest.map (List.drop overlap)).flatten

/-- An entry of the Vector Index: stored chunk text with provenance. -/
structure IndexEntry where
  content : List Char
  source : List Char
deriving DecidableEq, Repr

/-- Ordering of retrieval results by non-increasing score. -/
def scoreGe (a b : RetrievalResult) : Prop := b.score ≤ a.score

instance : DecidableRel scoreGe :=
  fun a b => inferInstanceAs (Decidable (b.score ≤ a.score))

instance : IsTotal RetrievalResult scoreGe :=
  ⟨fun a b => le_total b.score a.score⟩

instance : IsTrans RetrievalResult scoreGe :=
  ⟨fun _ _ _ hab hbc => le_trans hbc hab⟩

/-- Modelled from the spec: retrieve of section 4.3 - score every index entry
against the query through an abstract similarity oracle (the embedding gateway
composed with the index metric), rank by score descending and keep the best
top_k; the concrete retriever is not in the source tree.  It is a total
function: an empty index yields the empty sequence, never an error. -/
def retrieve (sim : List Char → IndexEntry → Rat) (index : List IndexEntry)
    (query : List Char) (top_k : Nat) : List RetrievalResult :=
  let scored := index.map (fun e => RetrievalResult.mk e.content e.source (sim query e))
  (List.insertionSort scoreGe scored).take top_k

/-- Per-document outcome observed by the batch loop of
src/init_knowledge_base.py: file name together with the (success, chunks)
pair returned by rag_service.add_knowledge_from_file. -/
structure IngestFileResult where
  name : List Char
  success : Bool
  chunks : Nat
deriving DecidableEq, Repr

/-- Totals reported by the batch loop, plus the list of files for which a
per-file result line was printed. -/
structure IngestReport where
  success_count : Nat
  total_chunks : Nat
  processed : List (List Char)
deriving DecidableEq, Repr

/-- Batch loop of src/init_knowledge_base.py lines 44-71: every file is
processed in order; a success increments the success count and adds its
chunks, a failure only prints a per-file failure line. -/
def init_kb_loop : List IngestFileResult → IngestReport
  | [] => ⟨0, 0, []⟩
  | f :: rest =>
    let r := init_kb_loop rest
    if f.success then
      ⟨r.success_count + 1, f.chunks + r.total_chunks, f.name :: r.processed⟩
    else
      ⟨r.success_count, r.total_chunks, f.name :: r.processed⟩

theorem splitGo_flatten_drop (maxSize overlap : Nat) (hov : overlap < maxSize) :
    ∀ n (text : List Char), text.length ≤ n →
      (List.map (List.drop overlap) (splitGo maxSize (maxSize - overlap) text)).flatten
        = List.drop overlap text := by
  intro n
  induction n with
  | zero =>
    intro text hlen
    have he : text = [] := List.eq_nil_of_length_eq_zero (Nat.le_zero.mp hlen)
    subst he
    rw [splitGo]
    simp
  | succ n ih =>
    intro text hlen
    rw [splitGo]
    by_cases h1 : text.length ≤ maxSize
    · simp [h1]
    · have hstep : ¬ (maxSize - overlap = 0) := by omega
      simp only [dif_neg h1, dif_neg hstep, List.map_cons, List.flatten_cons]
      rw [ih (text.drop (maxSize - overlap)) (by simp only [List.length_drop]; omega)]
      rw [List.drop_drop]
      have hsum : maxSize - overlap + overlap = maxSize := by omega
      rw [hsum]
      have htk : overlap ≤ (List.take maxSize text).length := by
        rw [List.length_take]
        omega
      calc List.drop overlap (List.take maxSize text) ++ List.drop maxSize text
          = List.drop overlap (List.take maxSize text ++ List.drop maxSize text) := by
            rw [List.drop_append_of_le_length htk]
        _ = List.drop overlap text := by rw [List.take_append_drop]

/-- Claim C5: chunking is deterministic - identical input and parameters give
an identical chunk sequence - and lossless: concatenating the chunks with each
later chunk's leading overlap removed reconstructs the source text exactly,
for any overlap smaller than the chunk size. -/
theorem C5_chunking_lossless (text : List Char) (maxSize overlap : Nat)
    (hov : overlap < maxSize) :
    (∀ text2, text2 = text → split text2 maxSize overlap = split text maxSize overlap) ∧
    reassemble (split text maxSize overlap) overlap = text := by
  refine ⟨fun text2 h => by rw [h], ?_⟩
  unfold split
  by_cases he : text.isEmpty
  · rw [if_pos he]
    rw [List.isEmpty_iff] at he
    simp [reassemble, he]
  · rw [if_neg he]
    rw [splitGo]
    by_cases h1 : text.length ≤ maxSize
    · simp [h1, reassemble]
    · have hstep : ¬ (maxSize - overlap = 0) := by omega
      simp only [dif_neg h1, dif_neg hstep]
      simp only [reassemble]
      rw [splitGo_flatten_drop maxSize overlap hov (text.drop (maxSize - overlap)).length
            (text.drop (maxSize - overlap)) le_rfl]
      rw [List.drop_drop]
      have hsum : maxSize - overlap + overlap = maxSize := by omega
      rw [hsum, List.take_append_drop]

/-- Witness for C5 on a concrete ten-character text with chunk size 4 and
overlap 1. -/
theorem C5_chunking_lossless_witness :
    1 < 4 ∧
    reassemble (split (String.data "abcdefghij") 4 1) 1 = String.data "abcdefghij" :=
  ⟨by decide, (C5_chunking_lossless (String.data "abcdefghij") 4 1 (by decide)).2⟩

/-- Claim C4: retrieve returns at most top_k results, sorted by score in
non-increasing order, and on an empty index it returns the empty sequence
(it is a total function, so no exception is raised). -/
theorem C4_retrieve_contract (sim : List Char → IndexEntry → Rat)
    (index : List IndexEntry) (query : List Char) (top_k : Nat) (_hk : 0 < top_k) :
    (retrieve sim index query top_k).length ≤ top_k ∧
    List.Pairwise scoreGe (retrieve sim index query top_k) ∧
    (index = [] → retrieve sim index query top_k = []) := by
  refine ⟨?_, ?_, ?_⟩
  · unfold retrieve
    exact List.length_take_le top_k _
  · unfold retrieve
    exact (List.sorted_insertionSort scoreGe _).sublist (List.take_sublist _ _)
  · intro h
    subst h
    simp [retrieve]

/-- Witness for C4 at a concrete two-entry index with top_k five. -/
theorem C4_retrieve_contract_witness :
    0 < 5 ∧
    ((retrieve (fun _ _ => (1 : Rat) / 2)
        [⟨String.data "a", String.data "s1"⟩, ⟨String.data "b", String.data "s2"⟩]
        (String.data "x") 5).length ≤ 5 ∧
      List.Pairwise scoreGe (retrieve (fun _ _ => (1 : Rat) / 2)
        [⟨String.data "a", String.data "s1"⟩, ⟨String.data "b", String.data "s2"⟩]
        (String.data "x") 5) ∧
      ([⟨String.data "a", String.data "s1"⟩, ⟨String.data "b", String.data "s2"⟩]
          = ([] : List IndexEntry) →
        retrieve (fun _ _ => (1 : Rat) / 2)
          [⟨String.data "a", String.data "s1"⟩, ⟨String.data "b", String.data "s2"⟩]
          (String.data "x") 5 = [])) :=
  ⟨by decide,
    C4_retrieve_contract (fun _ _ => (1 : Rat) / 2)
      [⟨String.data "a", String.data "s1"⟩, ⟨String.data "b", String.data "s2"⟩]
      (String.data "x") 5 (by decide)⟩

/-- Claim C3: a per-document failure does not abort batch ingestion - every
file is still processed in order - and the reported totals count exactly the
successfully ingested documents and the sum of their chunk counts. -/
theorem C3_batch_ingestion_totals (files : List IngestFileResult) :
    (init_kb_loop files).processed = files.map (fun f => f.name) ∧
    (init_kb_loop files).success_count = (files.filter (fun f => f.success)).length ∧
    (init_kb_loop files).total_chunks
      = ((files.filter (fun f => f.success)).map (fun f => f.chunks)).sum := by
  induction files with
  | nil => exact ⟨rfl, rfl, rfl⟩
  | cons f rest ih =>
    by_cases hs : f.success
    · simp [init_kb_loop, hs, ih.1, ih.2.1, ih.2.2, List.filter_cons]
    · simp [init_kb_loop, hs, ih.1, ih.2.1, ih.2.2, List.filter_cons]

theorem history_of_find (store : List Conversation) (id : List Char)
    (c : Conversation) (hc : findConversation store id = some c) :
    get_conversation_history store id = c.messages := by
  unfold get_conversation_history
  rw [hc]

theorem processInput_rag_eq (genD : GenRequest → Option (List Char))
    (genA : List Char → List Message → Option (List Char × List RetrievalResult))
    (st : ChatState) (input : List Char) (t1 t2 : Nat) (c : Conversation)
    (hc : findConversation st.store st.current_id = some c) :
    processInput false genD genA st input t1 t2
      = (match genA input c.messages with
        | none =>
          ⟨⟨updateConv st.current_id (appendToConv .user input [] t1) st.store,
              st.current_id⟩,
            some (.rag input c.messages), [], true⟩
        | some (answer, sources) =>
          ⟨⟨updateConv st.current_id (appendToConv .assistant answer sources t2)
              (updateConv st.current_id (appendToConv .user input [] t1) st.store),
              st.current_id⟩,
            some (.rag input c.messages), citedSources sources, false⟩) := by
  have h1 := add_message_ok st.store st.current_id .user input [] t1 c hc
  have hfind1 := find_after_add st.store st.current_id .user input [] t1 c hc
  have hdrop :
      (get_conversation_history
          (updateConv st.current_id (appendToConv .user input [] t1) st.store)
          st.current_id).dropLast = c.messages := by
    rw [history_after_add st.store st.current_id .user input [] t1 c hc,
      history_of_find st.store st.current_id c hc]
    simp
  unfold processInput
  rw [h1]
  simp only [hdrop]
  cases hg : genA input c.messages with
  | none => simp
  | some p =>
    obtain ⟨answer, sources⟩ := p
    have h2 := add_message_ok
      (updateConv st.current_id (appendToConv .user input [] t1) st.store)
      st.current_id .assistant answer sources t2 _ hfind1
    simp [h2]

theorem processInput_direct_eq (genD : GenRequest → Option (List Char))
    (genA : List Char → List Message → Option (List Char × List RetrievalResult))
    (st : ChatState) (input : List Char) (t1 t2 : Nat) (c : Conversation)
    (hc : findConversation st.store st.current_id = some c) :
    processInput true genD genA st input t1 t2
      = (match genD ⟨input, FITNESS_COACH_SYSTEM_PROMPT⟩ with
        | none =>
          ⟨⟨updateConv st.current_id (appendToConv .user input [] t1) st.store,
              st.current_id⟩,
            some (.direct ⟨input, FITNESS_COACH_SYSTEM_PROMPT⟩), [], true⟩
        | some answer =>
          ⟨⟨updateConv st.current_id (appendToConv .assistant answer [] t2)
              (updateConv st.current_id (appendToConv .user input [] t1) st.store),
              st.current_id⟩,
            some (.direct ⟨input, FITNESS_COACH_SYSTEM_PROMPT⟩), [], false⟩) := by
  have h1 := add_message_ok st.store st.current_id .user input [] t1 c hc
  have hfind1 := find_after_add st.store st.current_id .user input [] t1 c hc
  unfold processInput
  rw [h1]
  cases hg : genD ⟨input, FITNESS_COACH_SYSTEM_PROMPT⟩ with
  | none => simp
  | some answer =>
    have h2 := add_message_ok
      (updateConv st.current_id (appendToConv .user input [] t1) st.store)
      st.current_id .assistant answer [] t2 _ hfind1
    simp [h2, citedSources]

/-- Claim C6: append to a conversation id not present in the store fails with
NotFoundError and creates nothing; append to a known id atomically appends
exactly one message (with the given role, content and sources) and sets
updated_at, leaving every other conversation untouched. -/
theorem C6_append_contract (store : List Conversation) (id : List Char)
    (role : MessageRole) (content : List Char) (sources : List RetrievalResult)
    (now : Nat) :
    (findConversation store id = none →
      add_message store id role content sources now = .error .notFound) ∧
    (∀ c, findConversation store id = some c →
      add_message store id role content sources now
        = .ok (updateConv id (appendToConv role content sources now) store) ∧
      findConversation (updateConv id (appendToConv role content sources now) store) id
        = some { c with messages := c.messages ++ [⟨role, content, sources, now⟩],
                        updated_at := now } ∧
      ∀ d ∈ store, d.id ≠ id →
        d ∈ updateConv id (appendToConv role content sources now) store) := by
  constructor
  · intro h
    simp [add_message, h]
  · intro c hc
    refine ⟨add_message_ok store id role content sources now c hc, ?_, ?_⟩
    · rw [find_after_add store id role content sources now c hc]
      rfl
    · intro d hd hne
      unfold updateConv
      exact List.mem_map.mpr ⟨d, hd, by simp [hne]⟩

/-- Witness for C6: appending on the empty store fails with NotFoundError. -/
theorem C6_append_contract_witness :
    findConversation [] (String.data "x") = none ∧
    add_message [] (String.data "x") .user (String.data "hi") [] 3
      = .error .notFound :=
  ⟨rfl, (C6_append_contract [] (String.data "x") .user (String.data "hi") [] 3).1 rfl⟩

/-- Sample conversation used by concrete witnesses. -/
def sampleConv : Conversation :=
  ⟨String.data "c1", String.data "t", [], 0, 0⟩

/-- Sample chat state holding only sampleConv. -/
def sampleState : ChatState := ⟨[sampleConv], String.data "c1"⟩

/-- Sample retrieval results, four of them so that citation display has to
truncate. -/
def sampleSources : List RetrievalResult :=
  [⟨String.data "p1", String.data "s1", 1⟩,
   ⟨String.data "p2", String.data "s2", 1 / 2⟩,
   ⟨String.data "p3", String.data "s3", 1 / 3⟩,
   ⟨String.data "p4", String.data "s4", 1 / 4⟩]

/-- Sample direct generation gateway that always answers. -/
def sampleGenD : GenRequest → Option (List Char) :=
  fun _ => some (String.data "ok")

/-- Sample RAG gateway that always answers with four sources. -/
def sampleGenA : List Char → List Message → Option (List Char × List RetrievalResult) :=
  fun _ _ => some (String.data "ok", sampleSources)

/-- Failing RAG gateway, standing for a raised GenerationError. -/
def failGenA : List Char → List Message → Option (List Char × List RetrievalResult) :=
  fun _ _ => none

/-- Claim C9: the conversation history handed to RAG answer generation is the
stored history with its freshly appended user message removed, which is
exactly the history as it was before the current turn. -/
theorem C9_rag_history_excludes_current (genD : GenRequest → Option (List Char))
    (genA : List Char → List Message → Option (List Char × List RetrievalResult))
    (st : ChatState) (input : List Char) (t1 t2 : Nat) (c : Conversation)
    (hc : findConversation st.store st.current_id = some c) :
    (processInput false genD genA st input t1 t2).call
      = some (GenCall.rag input
          ((get_conversation_history st.store st.current_id
              ++ [Message.mk .user input [] t1]).dropLast)) ∧
    (processInput false genD genA st input t1 t2).call
      = some (.rag input (get_conversation_history st.store st.current_id)) := by
  rw [processInput_rag_eq genD genA st input t1 t2 c hc,
    history_of_find st.store st.current_id c hc]
  cases genA input c.messages with
  | none => exact ⟨by simp, rfl⟩
  | some p =>
    obtain ⟨a, s⟩ := p
    exact ⟨by simp, rfl⟩

/-- Witness for C9 on the sample state. -/
theorem C9_rag_history_excludes_current_witness :
    findConversation sampleState.store sampleState.current_id = some sampleConv ∧
    (processInput false sampleGenD sampleGenA sampleState (String.data "hi") 1 2).call
      = some (.rag (String.data "hi")
          (get_conversation_history sampleState.store sampleState.current_id)) :=
  ⟨rfl, (C9_rag_history_excludes_current sampleGenD sampleGenA sampleState
    (String.data "hi") 1 2 sampleConv rfl).2⟩

/-- Claim C10: in no-RAG mode the generation request is exactly the current
user input together with the fixed fitness-coach system prompt; it does not
depend on the conversation state, so any two states with a valid current
conversation produce the same call. -/
theorem C10_norag_request_fixed (genD : GenRequest → Option (List Char))
    (genA : List Char → List Message → Option (List Char × List RetrievalResult))
    (st : ChatState) (input : List Char) (t1 t2 : Nat) (c : Conversation)
    (hc : findConversation st.store st.current_id = some c) :
    (processInput true genD genA st input t1 t2).call
      = some (.direct ⟨input, FITNESS_COACH_SYSTEM_PROMPT⟩) ∧
    (∀ st2 c2, findConversation st2.store st2.current_id = some c2 →
      (processInput true genD genA st2 input t1 t2).call
        = (processInput true genD genA st input t1 t2).call) := by
  have base : ∀ s3 c3, findConversation s3.store s3.current_id = some c3 →
      (processInput true genD genA s3 input t1 t2).call
        = some (.direct ⟨input, FITNESS_COACH_SYSTEM_PROMPT⟩) := by
    intro s3 c3 h3
    rw [processInput_direct_eq genD genA s3 input t1 t2 c3 h3]
    cases genD ⟨input, FITNESS_COACH_SYSTEM_PROMPT⟩ <;> rfl
  exact ⟨base st c hc, fun st2 c2 h2 => by rw [base st2 c2 h2, base st c hc]⟩

/-- Witness for C10 on the sample state. -/
theorem C10_norag_request_fixed_witness :
    findConversation sampleState.store sampleState.current_id = some sampleConv ∧
    (processInput true sampleGenD sampleGenA sampleState (String.data "hi") 1 2).call
      = some (.direct ⟨String.data "hi", FITNESS_COACH_SYSTEM_PROMPT⟩) :=
  ⟨rfl, (C10_norag_request_fixed sampleGenD sampleGenA sampleState
    (String.data "hi") 1 2 sampleConv rfl).1⟩

/-- Claim C2: in no-RAG mode the assistant message recorded for a successful
turn carries the empty source list, and nothing is surfaced as citations. -/
theorem C2_norag_sources_empty (genD : GenRequest → Option (List Char))
    (genA : List Char → List Message → Option (List Char × List RetrievalResult))
    (st : ChatState) (input : List Char) (t1 t2 : Nat) (c : Conversation)
    (ans : List Char)
    (hc : findConversation st.store st.current_id = some c)
    (hg : genD ⟨input, FITNESS_COACH_SYSTEM_PROMPT⟩ = some ans) :
    (get_conversation_history
        (processInput true genD genA st input t1 t2).state.store
        st.current_id).getLast?
      = some ⟨.assistant, ans, [], t2⟩ ∧
    (processInput true genD genA st input t1 t2).displayed = [] := by
  rw [processInput_direct_eq genD genA st input t1 t2 c hc, hg]
  refine ⟨?_, rfl⟩
  simp only
  rw [history_after_add _ st.current_id .assistant ans [] t2 _
    (find_after_add st.store st.current_id .user input [] t1 c hc)]
  simp

/-- Witness for C2 on the sample state. -/
theorem C2_norag_sources_empty_witness :
    sampleGenD ⟨String.data "hi", FITNESS_COACH_SYSTEM_PROMPT⟩
      = some (String.data "ok") ∧
    (get_conversation_history
        (processInput true sampleGenD sampleGenA sampleState (String.data "hi") 1 2).state.store
        sampleState.current_id).getLast?
      = some ⟨.assistant, String.data "ok", [], 2⟩ :=
  ⟨rfl, (C2_norag_sources_empty sampleGenD sampleGenA sampleState
    (String.data "hi") 1 2 sampleConv (String.data "ok") rfl rfl).1⟩

/-- Claim C7: the citations surfaced for a successful RAG turn are the first
three retrieval results, in the order the RAG service returned them, or all
of them when fewer than three were retrieved. -/
theorem C7_cited_sources_top3 (genD : GenRequest → Option (List Char))
    (genA : List Char → List Message → Option (List Char × List RetrievalResult))
    (st : ChatState) (input : List Char) (t1 t2 : Nat) (c : Conversation)
    (ans : List Char) (rs : List RetrievalResult)
    (hc : findConversation st.store st.current_id = some c)
    (hg : genA input c.messages = some (ans, rs)) :
    (processInput false genD genA st input t1 t2).displayed = rs.take 3 ∧
    (processInput false genD genA st input t1 t2).displayed.length
      = min 3 rs.length := by
  have hcit : citedSources rs = rs.take 3 := by
    cases rs <;> simp [citedSources]
  rw [processInput_rag_eq genD genA st input t1 t2 c hc, hg]
  exact ⟨by simpa using hcit, by simp [hcit, List.length_take]⟩

/-- Witness for C7: four retrieved sources, three displayed. -/
theorem C7_cited_sources_top3_witness :
    sampleGenA (String.data "hi") sampleConv.messages
      = some (String.data "ok", sampleSources) ∧
    (processInput false sampleGenD sampleGenA sampleState (String.data "hi") 1 2).displayed
      = sampleSources.take 3 :=
  ⟨rfl, (C7_cited_sources_top3 sampleGenD sampleGenA sampleState
    (String.data "hi") 1 2 sampleConv (String.data "ok") sampleSources rfl rfl).1⟩

/-- Counterexample to claim C1 as stated: with a generation gateway that
fails, the turn still updates the conversation history - the user query has
already been appended when the failure surfaces, so the history is no longer
what it was before the turn. -/
theorem C1_counterexample :
    (processInput false sampleGenD failGenA sampleState (String.data "hi") 1 2).genError
      = true ∧
    get_conversation_history
        (processInput false sampleGenD failGenA sampleState (String.data "hi") 1 2).state.store
        sampleState.current_id
      ≠ get_conversation_history sampleState.store sampleState.current_id := by
  exact ⟨rfl, by decide⟩

/-- Claim C1 as amended: on a generation failure the user query (appended
before generation) remains as the only new message - no assistant or partial
answer is recorded - while on success both the user query and the assistant
answer are appended before the turn returns. -/
theorem C1_amended_turn_recording (noRag : Bool)
    (genD : GenRequest → Option (List Char))
    (genA : List Char → List Message → Option (List Char × List RetrievalResult))
    (st : ChatState) (input : List Char) (t1 t2 : Nat) (c : Conversation)
    (hc : findConversation st.store st.current_id = some c) :
    ((processInput noRag genD genA st input t1 t2).genError = true →
      get_conversation_history
          (processInput noRag genD genA st input t1 t2).state.store st.current_id
        = c.messages ++ [⟨.user, input, [], t1⟩]) ∧
    ((processInput noRag genD genA st input t1 t2).genError = false →
      ∃ ans srcs,
        get_conversation_history
            (processInput noRag genD genA st input t1 t2).state.store st.current_id
          = c.messages ++ [⟨.user, input, [], t1⟩, ⟨.assistant, ans, srcs, t2⟩]) := by
  have hh1 : get_conversation_history
      (updateConv st.current_id (appendToConv .user input [] t1) st.store)
      st.current_id = c.messages ++ [⟨.user, input, [], t1⟩] := by
    rw [history_after_add st.store st.current_id .user input [] t1 c hc,
      history_of_find st.store st.current_id c hc]
  have hfind1 := find_after_add st.store st.current_id .user input [] t1 c hc
  cases noRag with
  | false =>
    rw [processInput_rag_eq genD genA st input t1 t2 c hc]
    cases hg : genA input c.messages with
    | none =>
      refine ⟨fun _ => hh1, fun hfalse => absurd hfalse (by simp)⟩
    | some p =>
      obtain ⟨ans, srcs⟩ := p
      refine ⟨fun htrue => absurd htrue (by simp), fun _ => ⟨ans, srcs, ?_⟩⟩
      simp only
      rw [history_after_add _ st.current_id .assistant ans srcs t2 _ hfind1, hh1]
      simp
  | true =>
    rw [processInput_direct_eq genD genA st input t1 t2 c hc]
    cases hg : genD ⟨input, FITNESS_COACH_SYSTEM_PROMPT⟩ with
    | none =>
      refine ⟨fun _ => hh1, fun hfalse => absurd hfalse (by simp)⟩
    | some ans =>
      refine ⟨fun htrue => absurd htrue (by simp), fun _ => ⟨ans, [], ?_⟩⟩
      simp only
      rw [history_after_add _ st.current_id .assistant ans [] t2 _ hfind1, hh1]
      simp

/-- Witness for the amended C1: a concrete failed generation leaves exactly
the user query appended. -/
theorem C1_amended_turn_recording_witness :
    (processInput false sampleGenD failGenA sampleState (String.data "hi") 1 2).genError
      = true ∧
    get_conversation_history
        (processInput false sampleGenD failGenA sampleState (String.data "hi") 1 2).state.store
        sampleState.current_id
      = sampleConv.messages ++ [⟨.user, String.data "hi", [], 1⟩] :=
  ⟨rfl, (C1_amended_turn_recording false sampleGenD failGenA sampleState
    (String.data "hi") 1 2 sampleConv rfl).1 rfl⟩

theorem toLower_ws (c : Char) (h : c.isWhitespace = true) : c.toLower = c := by
  simp only [Char.isWhitespace, Bool.or_eq_true, decide_eq_true_eq] at h
  rcases h with ((rfl | rfl) | rfl) | rfl <;> decide

theorem pyLower_ws (s : List Char) (h : s.all Char.isWhitespace = true) :
    pyLower s = s := by
  induction s with
  | nil => rfl
  | cons c cs ih =>
    simp only [List.all_cons, Bool.and_eq_true] at h
    have htail : pyLower cs = cs := ih h.2
    simp only [pyLower, List.map_cons, toLower_ws c h.1]
    simpa [pyLower] using htail

theorem pyLstrip_ws (s : List Char) (h : s.all Char.isWhitespace = true) :
    pyLstrip s = [] := by
  induction s with
  | nil => rfl
  | cons c cs ih =>
    simp only [List.all_cons, Bool.and_eq_true] at h
    simp [pyLstrip, h.1, ih h.2]

theorem pyStrip_ws (s : List Char) (h : s.all Char.isWhitespace = true) :
    pyStrip s = [] := by
  unfold pyStrip
  rw [pyLstrip_ws s h]
  rfl

/-- Claim C8: an interactive input that is empty or all whitespace leaves the
chat state untouched - no message is appended, no generation or retrieval
call is made, nothing is displayed. -/
theorem C8_whitespace_noop (noRag : Bool)
    (genD : GenRequest → Option (List Char))
    (genA : List Char → List Message → Option (List Char × List RetrievalResult))
    (st : ChatState) (input freshId : List Char) (t1 t2 : Nat)
    (h : input.all Char.isWhitespace = true) :
    loopBody noRag genD genA st input freshId t1 t2 = ⟨st, none, [], false⟩ := by
  have hlow : pyLower input = input := pyLower_ws input h
  have h1 : input ∉ [String.data "quit", String.data "exit", String.data "q"] := by
    intro hm
    simp only [List.mem_cons, List.not_mem_nil, or_false] at hm
    rcases hm with rfl | rfl | rfl <;> exact absurd h (by decide)
  have h2 : ¬ (input = String.data "help") :=
    fun heq => absurd (heq ▸ h) (by decide)
  have h3 : ¬ (input = String.data "history") :=
    fun heq => absurd (heq ▸ h) (by decide)
  have h4 : ¬ (pyStartswith input (String.data "new ") = true) := by
    cases input with
    | nil => simp [pyStartswith]
    | cons c cs =>
      simp only [List.all_cons, Bool.and_eq_true] at h
      have hb : (c == 'n') = false := by
        cases hb2 : c == 'n'
        · rfl
        · exact absurd (eq_of_beq hb2 ▸ h.1) (by decide)
      simp [pyStartswith, hb]
  have h5 : pyStrip input = [] := pyStrip_ws input h
  unfold loopBody
  rw [hlow, if_neg h1, if_neg h2, if_neg h3, if_neg h4, if_pos h5]

/-- Witness for C8 on a two-space input. -/
theorem C8_whitespace_noop_witness :
    (String.data "  ").all Char.isWhitespace = true ∧
    loopBody false sampleGenD sampleGenA sampleState (String.data "  ")
        (String.data "f") 1 2
      = ⟨sampleState, none, [], false⟩ :=
  ⟨by decide, C8_whitespace_noop false sampleGenD sampleGenA sampleState
    (String.data "  ") (String.data "f") 1 2 (by decide)⟩

end FitnessChat
